import Mathlib

/-!
Shallow embedding of the tick/price/liquidity math of
`src/utils/math.ts` and of the liquidity-depth reconstruction of
`src/components/LiquidityDepthChart.tsx`.

Modelling conventions:
* JavaScript `number` arithmetic on prices and factors is modelled by exact
  arithmetic: rational (`ℚ`) where the source only uses field operations, and
  real (`ℝ`) where the source uses `Math.log` / `Math.sqrt`.
* JavaScript `bigint` is modelled by `ℤ`; `bigint` division truncates toward
  zero, which is `Int.tdiv`.
* `Math.round` rounds half toward `+∞`, which is Lean's `round`
  (`round x = ⌊x + 1/2⌋`); `Math.floor` is `Int.floor`.
-/

namespace UniswapV3UI

/-- `SAFE_TICK_LOWER` from `src/utils/math.ts`. -/
def SAFE_TICK_LOWER : ℤ := -500000

/-- `SAFE_TICK_UPPER` from `src/utils/math.ts`. -/
def SAFE_TICK_UPPER : ℤ := 500000

/-- `MIN_TICK` from `src/utils/math.ts`. -/
def MIN_TICK : ℤ := -887272

/-- `MAX_TICK` from `src/utils/math.ts`. -/
def MAX_TICK : ℤ := 887272

/-- `Q96 = 2n ** 96n` from `src/utils/math.ts`. -/
def Q96 : ℤ := 2 ^ 96

/-- `isTickSafe` from `src/utils/math.ts`:
`tick >= SAFE_TICK_LOWER && tick <= SAFE_TICK_UPPER`. -/
def isTickSafe (tick : ℤ) : Bool :=
  decide (SAFE_TICK_LOWER ≤ tick) && decide (tick ≤ SAFE_TICK_UPPER)

/-- `tickToPrice` from `src/utils/math.ts`.  Returns `none` when the tick is
outside the safe window; otherwise computes
`1.0001^tick * 10^(decimals0 - decimals1)` and additionally returns `none`
when the computed price is not positive (in exact arithmetic the
`Number.isFinite` part of the source's check cannot fire). -/
def tickToPrice (tick decimals0 decimals1 : ℤ) : Option ℚ :=
  if ¬ isTickSafe tick then none
  else
    let price : ℚ := (1.0001 : ℚ) ^ tick * (10 : ℚ) ^ (decimals0 - decimals1)
    if price ≤ 0 then none else some price

/-- `priceToTick` from `src/utils/math.ts`:
`Math.round(Math.log(price / 10^(decimals0-decimals1)) / Math.log(1.0001))`. -/
noncomputable def priceToTick (price : ℝ) (decimals0 decimals1 : ℤ) : ℤ :=
  let adjustedPrice := price / (10 : ℝ) ^ (decimals0 - decimals1)
  round (Real.log adjustedPrice / Real.log 1.0001)

/-- `nearestUsableTick` from `src/utils/math.ts`:
`Math.max(MIN_TICK, Math.min(MAX_TICK, Math.round(tick / tickSpacing) * tickSpacing))`. -/
def nearestUsableTick (tick tickSpacing : ℤ) : ℤ :=
  let rounded := round ((tick : ℚ) / (tickSpacing : ℚ)) * tickSpacing
  max MIN_TICK (min MAX_TICK rounded)

/-- `sqrtPriceX96ToPrice` from `src/utils/math.ts`:
`(sqrtPriceX96 / 2^96)^2 * 10^(decimals0 - decimals1)`. -/
def sqrtPriceX96ToPrice (sqrtPriceX96 : ℤ) (decimals0 decimals1 : ℤ) : ℚ :=
  let sqrtPrice : ℚ := (sqrtPriceX96 : ℚ) / (Q96 : ℚ)
  sqrtPrice * sqrtPrice * (10 : ℚ) ^ (decimals0 - decimals1)

/-- `priceToSqrtPriceX96` from `src/utils/math.ts`:
`BigInt(Math.floor(Math.sqrt(price / 10^(decimals0-decimals1)) * 2^96))`. -/
noncomputable def priceToSqrtPriceX96 (price : ℝ) (decimals0 decimals1 : ℤ) : ℤ :=
  let adjustedPrice := price / (10 : ℝ) ^ (decimals0 - decimals1)
  let sqrtPrice := Real.sqrt adjustedPrice
  ⌊sqrtPrice * (Q96 : ℝ)⌋

/-- `applySlippage` from `src/utils/math.ts`:
`(amount * BigInt(Math.floor(factor * 100))) / 10000n` with
`factor = isMinimum ? 100 - slippagePercent : 100 + slippagePercent`. -/
def applySlippage (amount : ℤ) (slippagePercent : ℚ) (isMinimum : Bool) : ℤ :=
  let factor : ℚ := if isMinimum then 100 - slippagePercent else 100 + slippagePercent
  Int.tdiv (amount * ⌊factor * 100⌋) 10000

/-- `getLiquidityAmounts` from `src/utils/math.ts`: swaps the two bounds so
that `A ≤ B`, then splits on the current sqrt price being below, inside or
above the range. -/
def getLiquidityAmounts (sqrtPriceX96 sqrtPriceAX96 sqrtPriceBX96 liquidity : ℤ) :
    ℤ × ℤ :=
  let A := if sqrtPriceAX96 > sqrtPriceBX96 then sqrtPriceBX96 else sqrtPriceAX96
  let B := if sqrtPriceAX96 > sqrtPriceBX96 then sqrtPriceAX96 else sqrtPriceBX96
  if sqrtPriceX96 ≤ A then
    (Int.tdiv (liquidity * Q96 * (B - A)) (A * B), 0)
  else if sqrtPriceX96 < B then
    (Int.tdiv (liquidity * Q96 * (B - sqrtPriceX96)) (sqrtPriceX96 * B),
      Int.tdiv (liquidity * (sqrtPriceX96 - A)) Q96)
  else
    (0, Int.tdiv (liquidity * (B - A)) Q96)

/-- One populated-tick record as fetched by `LiquidityDepthChart`
(`TickData` interface). -/
structure TickData where
  tick : ℤ
  liquidityNet : ℤ
  liquidityGross : ℤ
deriving DecidableEq

/-- `allTicks.sort((a, b) => a.tick - b.tick)` from
`src/components/LiquidityDepthChart.tsx`: sort ascending by tick
(JavaScript's `Array.prototype.sort` is a stable comparison sort, modelled by
a stable insertion sort). -/
def sortTicks (l : List TickData) : List TickData :=
  List.insertionSort (fun a b => a.tick ≤ b.tick) l

/-- The accumulation loop of the depth chart: walk the (sorted) tick list,
add each entry's `liquidityNet` to the running liquidity and record
`runningLiquidity > 0n ? runningLiquidity : 0n` for that entry's tick
(`LiquidityDepthChart.tsx` lines 101-109; the `liquidityBars` loop of the
other chart variant records the same values). -/
def accumulateLiquidity : ℤ → List TickData → List (ℤ × ℤ)
  | _, [] => []
  | running, t :: rest =>
    let r := running + t.liquidityNet
    (t.tick, if 0 < r then r else 0) :: accumulateLiquidity r rest

/-- The full depth-chart pipeline on a fetched tick list: sort by tick, then
accumulate `liquidityNet` deltas starting from `0n`, clamping each recorded
value at zero. -/
def liquidityByTick (entries : List TickData) : List (ℤ × ℤ) :=
  accumulateLiquidity 0 (sortTicks entries)

/-- The price→tick pipeline in the words of the spec (§4): logarithm inverse
rounded to the nearest integer tick, then snapped to the nearest multiple of
the pool's tick spacing, then clamped to the protocol's global tick bounds
`±887272`.  Used to compare the spec's description against the source's
`priceToTick` / `nearestUsableTick`. -/
noncomputable def specPriceToTickSnapped (price : ℝ) (decimals0 decimals1 tickSpacing : ℤ) : ℤ :=
  let tick := round (Real.log (price / (10 : ℝ) ^ (decimals0 - decimals1)) / Real.log 1.0001)
  let snapped := round ((tick : ℚ) / (tickSpacing : ℚ)) * tickSpacing
  max (-887272) (min 887272 snapped)

/-! ## Helper lemmas -/

/-- For a tick inside the safe window, `tickToPrice` returns the exact
price formula; the positivity guard cannot fire. -/
theorem tickToPrice_of_safe (tick decimals0 decimals1 : ℤ)
    (h : isTickSafe tick = true) :
    tickToPrice tick decimals0 decimals1 =
      some ((1.0001 : ℚ) ^ tick * (10 : ℚ) ^ (decimals0 - decimals1)) := by
  have hpos : (0 : ℚ) < (1.0001 : ℚ) ^ tick * (10 : ℚ) ^ (decimals0 - decimals1) :=
    mul_pos (zpow_pos (by norm_num) tick) (zpow_pos (by norm_num) _)
  simp [tickToPrice, h, not_le.mpr hpos]

/-- Rounding the base-1.0001 logarithm of a positive real changes the value
by at most a factor of `√1.0001` in either direction. -/
theorem zpow_round_log_div_log_bounds (x : ℝ) (hx : 0 < x) :
    x / Real.sqrt 1.0001 ≤ (1.0001 : ℝ) ^ round (Real.log x / Real.log 1.0001) ∧
    (1.0001 : ℝ) ^ round (Real.log x / Real.log 1.0001) ≤ x * Real.sqrt 1.0001 := by
  have hc0 : (0 : ℝ) < 1.0001 := by norm_num
  have hlc : 0 < Real.log 1.0001 := Real.log_pos (by norm_num)
  set L := Real.log x / Real.log 1.0001 with hL
  set t := round L with ht
  have habs : |L - (t : ℝ)| ≤ 1 / 2 := abs_sub_round L
  have h1 : L - 1 / 2 ≤ (t : ℝ) := by
    have := abs_le.mp habs
    linarith [this.2]
  have h2 : (t : ℝ) ≤ L + 1 / 2 := by
    have := abs_le.mp habs
    linarith [this.1]
  have hzpow : (1.0001 : ℝ) ^ t = Real.exp (Real.log 1.0001 * t) := by
    rw [← Real.rpow_intCast 1.0001 t, Real.rpow_def_of_pos hc0]
  have hlogx : Real.log 1.0001 * L = Real.log x := by
    rw [hL]
    field_simp
  have hsqrt : Real.sqrt 1.0001 = Real.exp (Real.log 1.0001 * (1 / 2)) := by
    rw [Real.sqrt_eq_rpow, Real.rpow_def_of_pos hc0]
  have hexpx : Real.exp (Real.log 1.0001 * L) = x := by
    rw [hlogx, Real.exp_log hx]
  constructor
  · rw [hzpow, hsqrt, ← hexpx, ← Real.exp_sub]
    apply Real.exp_le_exp.mpr
    have heq : Real.log 1.0001 * L - Real.log 1.0001 * (1 / 2)
        = Real.log 1.0001 * (L - 1 / 2) := by ring
    rw [heq]
    exact mul_le_mul_of_nonneg_left h1 hlc.le
  · rw [hzpow, hsqrt, ← hexpx, ← Real.exp_add]
    apply Real.exp_le_exp.mpr
    have heq : Real.log 1.0001 * L + Real.log 1.0001 * (1 / 2)
        = Real.log 1.0001 * (L + 1 / 2) := by ring
    rw [heq]
    exact mul_le_mul_of_nonneg_left h2 hlc.le

/-- Sorting the fetched ticks yields a list sorted by tick. -/
theorem sortTicks_sorted (l : List TickData) :
    (sortTicks l).Sorted (fun a b => a.tick ≤ b.tick) := by
  haveI : IsTotal TickData (fun a b => a.tick ≤ b.tick) := ⟨fun a b => le_total a.tick b.tick⟩
  haveI : IsTrans TickData (fun a b => a.tick ≤ b.tick) := ⟨fun _ _ _ h1 h2 => le_trans h1 h2⟩
  exact List.sorted_insertionSort _ l

/-- Sorting the fetched ticks is a permutation of the input. -/
theorem sortTicks_perm (l : List TickData) : (sortTicks l).Perm l :=
  List.perm_insertionSort _ l

/-- The tick recorded with each accumulated value comes from the input list. -/
theorem accumulateLiquidity_fst (init : ℤ) (l : List TickData) (p : ℤ × ℤ)
    (hp : p ∈ accumulateLiquidity init l) : ∃ e ∈ l, p.1 = e.tick := by
  induction l generalizing init with
  | nil => simp [accumulateLiquidity] at hp
  | cons t rest ih =>
    simp only [accumulateLiquidity, List.mem_cons] at hp
    rcases hp with h | h
    · exact ⟨t, List.mem_cons_self t rest, by rw [h]⟩
    · obtain ⟨e, he, hpe⟩ := ih _ h
      exact ⟨e, List.mem_cons_of_mem _ he, hpe⟩

/-- Every accumulated value is non-negative (the source clamps the running
liquidity at zero before recording it). -/
theorem accumulateLiquidity_snd_nonneg (init : ℤ) (l : List TickData) :
    ∀ p ∈ accumulateLiquidity init l, 0 ≤ p.2 := by
  induction l generalizing init with
  | nil => intro p hp; simp [accumulateLiquidity] at hp
  | cons t rest ih =>
    intro p hp
    simp only [accumulateLiquidity, List.mem_cons] at hp
    rcases hp with h | h
    · subst h; dsimp only; split <;> omega
    · exact ih _ p h

/-- On a list strictly sorted by tick, the value accumulated at each entry is
the running sum of `liquidityNet` over the entries with tick at most that
entry's tick, clamped below at zero. -/
theorem accumulateLiquidity_clamped_running_sum (l : List TickData) :
    ∀ init : ℤ, l.Sorted (fun a b => a.tick < b.tick) →
    ∀ p ∈ accumulateLiquidity init l,
      p.2 = max 0 (init +
        ((l.filter (fun e => e.tick ≤ p.1)).map TickData.liquidityNet).sum) := by
  induction l with
  | nil => intro init _ p hp; simp [accumulateLiquidity] at hp
  | cons t rest ih =>
    intro init hsort p hp
    rw [List.sorted_cons] at hsort
    obtain ⟨hlt, hrest⟩ := hsort
    simp only [accumulateLiquidity, List.mem_cons] at hp
    rcases hp with h | h
    · subst h
      dsimp only
      have hnone : rest.filter (fun e => decide (e.tick ≤ t.tick)) = [] := by
        rw [List.filter_eq_nil_iff]
        intro e he
        simp only [decide_eq_true_eq, not_le]
        exact hlt e he
      have hself : decide (t.tick ≤ t.tick) = true := by simp
      rw [List.filter_cons, if_pos hself, hnone]
      simp only [List.map_cons, List.map_nil, List.sum_cons, List.sum_nil, add_zero]
      split <;> omega
    · obtain ⟨e, he, hpe⟩ := accumulateLiquidity_fst _ _ p h
      have ht : (decide (t.tick ≤ p.1)) = true := by
        simp only [decide_eq_true_eq]
        rw [hpe]
        exact (hlt e he).le
      rw [List.filter_cons, if_pos ht]
      simp only [List.map_cons, List.sum_cons]
      rw [ih (init + t.liquidityNet) hrest p h]
      omega

/-! ## Claims -/

/-- Claim C1: for every tick strictly outside the safe window
`[-500000, 500000]`, `tickToPrice tick decimals0 decimals1` returns `none`
(the "unavailable" placeholder) instead of computing a price. -/
theorem tickToPrice_outside_safe_window (tick decimals0 decimals1 : ℤ)
    (h : tick < -500000 ∨ 500000 < tick) :
    tickToPrice tick decimals0 decimals1 = none := by
  have hs : isTickSafe tick = false := by
    simp only [isTickSafe, Bool.and_eq_false_iff, decide_eq_false_iff_not, not_le,
      SAFE_TICK_LOWER, SAFE_TICK_UPPER]
    omega
  simp [tickToPrice, hs]

/-- Witness for claim C1 at tick `500001`. -/
theorem tickToPrice_outside_safe_window_witness :
    ((500001 : ℤ) < -500000 ∨ (500000 : ℤ) < 500001) ∧ tickToPrice 500001 0 0 = none :=
  ⟨by decide, tickToPrice_outside_safe_window 500001 0 0 (by decide)⟩

/-- Claim C2 (corrected), counterexample to the claim as stated: at price
`1.0001 ^ 5` with equal decimals, `priceToTick` returns `5`, which is not
snapped to the pool tick spacing `10` (the spacing-snapped value would be
`nearestUsableTick 5 10 = 10`), so `priceToTick` alone does not snap or
clamp. -/
theorem priceToTick_no_snap_counterexample :
    priceToTick ((1.0001 : ℝ) ^ (5 : ℤ)) 0 0 = 5 ∧
    nearestUsableTick 5 10 = 10 ∧ (5 : ℤ) ≠ 10 := by
  refine ⟨?_, ?_, by decide⟩
  · have hne : Real.log 1.0001 ≠ 0 := ne_of_gt (Real.log_pos (by norm_num))
    simp only [priceToTick, sub_zero, zpow_zero, div_one]
    rw [Real.log_zpow, mul_div_assoc, div_self hne, mul_one]
    exact round_intCast 5
  · norm_num [nearestUsableTick, MIN_TICK, MAX_TICK, round_eq]

/-- Claim C2 (amended): `priceToTick` returns only the logarithm inverse
rounded to the nearest integer tick; snapping to the pool's tick spacing and
clamping to the global bounds are performed by the separate
`nearestUsableTick`, and the composition
`nearestUsableTick (priceToTick price decimals0 decimals1) tickSpacing`
(as used by `AddLiquidity.tsx`) equals the spec's round-snap-clamp
pipeline. -/
theorem nearestUsableTick_priceToTick_eq_spec
    (price : ℝ) (decimals0 decimals1 tickSpacing : ℤ) :
    nearestUsableTick (priceToTick price decimals0 decimals1) tickSpacing =
      specPriceToTickSnapped price decimals0 decimals1 tickSpacing := rfl

/-- Claim C3 (corrected), counterexample to the claim as stated: with tick
spacing `60`, `nearestUsableTick 1000000 60` is clamped to `MAX_TICK =
887272`, which is not a multiple of `60`. -/
theorem nearestUsableTick_clamped_not_multiple :
    nearestUsableTick 1000000 60 = 887272 ∧ ¬ (60 : ℤ) ∣ 887272 := by
  constructor
  · norm_num [nearestUsableTick, MIN_TICK, MAX_TICK, round_eq]
  · decide

/-- Claim C3 (amended): for every tick and positive tick spacing,
`nearestUsableTick` returns a value within the protocol bounds
`[-887272, 887272]`, and whenever the spacing-rounded value itself lies
within those bounds (i.e. no clamping occurs) the result is a multiple of
the tick spacing. -/
theorem nearestUsableTick_bounds_and_multiple (tick tickSpacing : ℤ)
    (hs : 0 < tickSpacing) :
    (MIN_TICK ≤ nearestUsableTick tick tickSpacing ∧
      nearestUsableTick tick tickSpacing ≤ MAX_TICK) ∧
    (MIN_TICK ≤ round ((tick : ℚ) / (tickSpacing : ℚ)) * tickSpacing →
      round ((tick : ℚ) / (tickSpacing : ℚ)) * tickSpacing ≤ MAX_TICK →
      tickSpacing ∣ nearestUsableTick tick tickSpacing) := by
  refine ⟨⟨le_max_left _ _, max_le (by decide) (min_le_left _ _)⟩, fun hlo hhi => ?_⟩
  have heq : nearestUsableTick tick tickSpacing
      = round ((tick : ℚ) / (tickSpacing : ℚ)) * tickSpacing := by
    simp only [nearestUsableTick]
    rw [min_eq_right hhi, max_eq_right hlo]
  rw [heq]
  exact dvd_mul_left _ _

/-- Witness for amended claim C3 at tick `123`, spacing `60`. -/
theorem nearestUsableTick_bounds_and_multiple_witness : (0 : ℤ) < 60 ∧
    ((MIN_TICK ≤ nearestUsableTick 123 60 ∧ nearestUsableTick 123 60 ≤ MAX_TICK) ∧
    (MIN_TICK ≤ round ((123 : ℚ) / (60 : ℚ)) * 60 →
      round ((123 : ℚ) / (60 : ℚ)) * 60 ≤ MAX_TICK →
      (60 : ℤ) ∣ nearestUsableTick 123 60)) :=
  ⟨by decide, nearestUsableTick_bounds_and_multiple 123 60 (by decide)⟩

/-- Claim C4: for every positive price whose computed tick is inside the safe
window, the round trip `tickToPrice (priceToTick price) ` returns a price
within a factor `1.0001 ^ (1/2) = √1.0001` of the original price. -/
theorem tickToPrice_priceToTick_roundtrip (price : ℝ) (decimals0 decimals1 : ℤ)
    (hp : 0 < price)
    (hsafe : isTickSafe (priceToTick price decimals0 decimals1) = true) :
    ∃ q : ℚ,
      tickToPrice (priceToTick price decimals0 decimals1) decimals0 decimals1 = some q ∧
      price / Real.sqrt 1.0001 ≤ (q : ℝ) ∧ (q : ℝ) ≤ price * Real.sqrt 1.0001 := by
  have hF : (0 : ℝ) < (10 : ℝ) ^ (decimals0 - decimals1) := zpow_pos (by norm_num) _
  have hx : (0 : ℝ) < price / (10 : ℝ) ^ (decimals0 - decimals1) := div_pos hp hF
  have hbounds := zpow_round_log_div_log_bounds
    (price / (10 : ℝ) ^ (decimals0 - decimals1)) hx
  have hs0 : (0 : ℝ) < Real.sqrt 1.0001 := Real.sqrt_pos.mpr (by norm_num)
  set t : ℤ := priceToTick price decimals0 decimals1 with ht
  have htt : t = round (Real.log (price / (10 : ℝ) ^ (decimals0 - decimals1)) /
      Real.log 1.0001) := by rw [ht]; rfl
  rw [← htt] at hbounds
  have hb1 : ((1.0001 : ℚ) : ℝ) = (1.0001 : ℝ) := by norm_num
  have hb2 : ((10 : ℚ) : ℝ) = (10 : ℝ) := by norm_num
  have hcast : (((1.0001 : ℚ) ^ t * (10 : ℚ) ^ (decimals0 - decimals1) : ℚ) : ℝ)
      = (1.0001 : ℝ) ^ t * (10 : ℝ) ^ (decimals0 - decimals1) := by
    push_cast [hb1, hb2]
    ring
  refine ⟨(1.0001 : ℚ) ^ t * (10 : ℚ) ^ (decimals0 - decimals1),
    tickToPrice_of_safe t decimals0 decimals1 hsafe, ?_, ?_⟩
  · rw [hcast]
    have h1 := mul_le_mul_of_nonneg_right hbounds.1 hF.le
    calc price / Real.sqrt 1.0001
        = price / (10 : ℝ) ^ (decimals0 - decimals1) / Real.sqrt 1.0001
            * (10 : ℝ) ^ (decimals0 - decimals1) := by
          field_simp
          ring
      _ ≤ (1.0001 : ℝ) ^ t * (10 : ℝ) ^ (decimals0 - decimals1) := h1
  · rw [hcast]
    have h2 := mul_le_mul_of_nonneg_right hbounds.2 hF.le
    calc (1.0001 : ℝ) ^ t * (10 : ℝ) ^ (decimals0 - decimals1)
        ≤ price / (10 : ℝ) ^ (decimals0 - decimals1) * Real.sqrt 1.0001
            * (10 : ℝ) ^ (decimals0 - decimals1) := h2
      _ = price * Real.sqrt 1.0001 := by
          field_simp

/-- Witness for claim C4 at price `1` and equal decimals. -/
theorem tickToPrice_priceToTick_roundtrip_witness :
    (0 : ℝ) < 1 ∧ isTickSafe (priceToTick 1 0 0) = true ∧
    ∃ q : ℚ, tickToPrice (priceToTick 1 0 0) 0 0 = some q ∧
      (1 : ℝ) / Real.sqrt 1.0001 ≤ (q : ℝ) ∧ (q : ℝ) ≤ (1 : ℝ) * Real.sqrt 1.0001 := by
  have h0 : priceToTick 1 0 0 = 0 := by
    simp [priceToTick, Real.log_one]
  have hsafe : isTickSafe (priceToTick 1 0 0) = true := by
    rw [h0]; decide
  exact ⟨by norm_num, hsafe, tickToPrice_priceToTick_roundtrip 1 0 0 (by norm_num) hsafe⟩

/-- Claim C5: for every tick inside the safe window `[-500000, 500000]` and
all decimal counts, `tickToPrice` returns the price
`1.0001^tick * 10^(decimals0 - decimals1)`. -/
theorem tickToPrice_inside_safe_window (tick decimals0 decimals1 : ℤ)
    (h1 : -500000 ≤ tick) (h2 : tick ≤ 500000) :
    tickToPrice tick decimals0 decimals1 =
      some ((1.0001 : ℚ) ^ tick * (10 : ℚ) ^ (decimals0 - decimals1)) := by
  have hs : isTickSafe tick = true := by
    simp only [isTickSafe, Bool.and_eq_true, decide_eq_true_eq,
      SAFE_TICK_LOWER, SAFE_TICK_UPPER]
    omega
  exact tickToPrice_of_safe tick decimals0 decimals1 hs

/-- Witness for claim C5 at tick `0`. -/
theorem tickToPrice_inside_safe_window_witness :
    (-500000 : ℤ) ≤ 0 ∧ (0 : ℤ) ≤ 500000 ∧
      tickToPrice 0 0 0 = some ((1.0001 : ℚ) ^ (0 : ℤ) * (10 : ℚ) ^ ((0 : ℤ) - 0)) :=
  ⟨by decide, by decide, tickToPrice_inside_safe_window 0 0 0 (by decide) (by decide)⟩

/-- Claim C6 (corrected), counterexample to the claim as stated: on the
single-entry list with `liquidityNet = -3` the running sum of deltas is `-3`,
but the chart records `0` for that tick (the recorded value is clamped at
zero), so the recorded value is not the running sum. -/
theorem liquidityByTick_clamped_counterexample :
    liquidityByTick [⟨5, -3, 3⟩] = [(5, 0)] ∧
      (([⟨5, -3, 3⟩] : List TickData).map TickData.liquidityNet).sum = -3 ∧
      (0 : ℤ) ≠ -3 :=
  ⟨by decide, by decide, by decide⟩

/-- Claim C6 (amended): for every finite list of tick entries with pairwise
distinct ticks, the reconstruction sorts the entries by tick ascending and
records at each initialized tick the running sum of the signed
`liquidityNet` deltas of all entries at or below that tick, clamped below at
zero. -/
theorem liquidityByTick_running_sum (entries : List TickData)
    (hdist : entries.Pairwise (fun a b => a.tick ≠ b.tick))
    (p : ℤ × ℤ) (hp : p ∈ liquidityByTick entries) :
    p.2 = max 0
      (((entries.filter (fun e => e.tick ≤ p.1)).map TickData.liquidityNet).sum) := by
  have hperm := sortTicks_perm entries
  have hdist' : (sortTicks entries).Pairwise (fun a b => a.tick ≠ b.tick) :=
    (List.Perm.pairwise_iff (fun {a b} h => Ne.symm h) hperm).mpr hdist
  have hsorted : (sortTicks entries).Sorted (fun a b => a.tick < b.tick) :=
    ((sortTicks_sorted entries).and hdist').imp (fun h => lt_of_le_of_ne h.1 h.2)
  have hmain := accumulateLiquidity_clamped_running_sum (sortTicks entries) 0 hsorted p hp
  rw [hmain, zero_add]
  congr 1
  exact List.Perm.sum_eq (List.Perm.map _ (List.Perm.filter _ hperm))

/-- Witness for amended claim C6 on an unsorted two-entry list. -/
theorem liquidityByTick_running_sum_witness :
    ([⟨10, 5, 0⟩, ⟨0, 3, 0⟩] : List TickData).Pairwise (fun a b => a.tick ≠ b.tick) ∧
    ((10 : ℤ), (8 : ℤ)) ∈ liquidityByTick [⟨10, 5, 0⟩, ⟨0, 3, 0⟩] ∧
    ((10 : ℤ), (8 : ℤ)).2 = max 0
      (((([⟨10, 5, 0⟩, ⟨0, 3, 0⟩] : List TickData).filter
        (fun e => e.tick ≤ ((10 : ℤ), (8 : ℤ)).1)).map TickData.liquidityNet).sum) :=
  ⟨by decide, by decide, liquidityByTick_running_sum _ (by decide) _ (by decide)⟩

/-- Claim C7: `sqrtPriceX96ToPrice` returns
`(sqrtPriceX96 / 2^96)^2 * 10^(decimals0 - decimals1)`, and for every
positive price `priceToSqrtPriceX96` returns
`⌊√(price / 10^(decimals0 - decimals1)) * 2^96⌋`. -/
theorem sqrtPriceX96_price_conversions (sqrtPriceX96 : ℤ) (price : ℝ)
    (decimals0 decimals1 e0 e1 : ℤ) (hp : 0 < price) :
    sqrtPriceX96ToPrice sqrtPriceX96 decimals0 decimals1 =
      ((sqrtPriceX96 : ℚ) / 2 ^ 96) ^ 2 * (10 : ℚ) ^ (decimals0 - decimals1) ∧
    priceToSqrtPriceX96 price e0 e1 =
      ⌊Real.sqrt (price / (10 : ℝ) ^ (e0 - e1)) * 2 ^ 96⌋ := by
  constructor
  · simp only [sqrtPriceX96ToPrice, Q96]
    push_cast
    ring
  · simp only [priceToSqrtPriceX96, Q96]
    norm_cast

/-- Witness for claim C7 at `sqrtPriceX96 = 1`, price `1`, equal decimals. -/
theorem sqrtPriceX96_price_conversions_witness : (0 : ℝ) < 1 ∧
    (sqrtPriceX96ToPrice 1 0 0 = ((1 : ℚ) / 2 ^ 96) ^ 2 * (10 : ℚ) ^ ((0 : ℤ) - 0) ∧
    priceToSqrtPriceX96 1 0 0 = ⌊Real.sqrt ((1 : ℝ) / (10 : ℝ) ^ ((0 : ℤ) - 0)) * 2 ^ 96⌋) := by
  have h := sqrtPriceX96_price_conversions 1 1 0 0 0 0 (by norm_num)
  exact ⟨by norm_num, by push_cast at h ⊢; exact h⟩

/-- Claim C8: for non-negative liquidity and positive bounds given in either
order, `getLiquidityAmounts` returns `amount1 = 0` when the current sqrt
price is at or below the lower bound (all token0), `amount0 = 0` when it is
at or above the upper bound (all token1), and both amounts are always
non-negative. -/
theorem getLiquidityAmounts_range_split
    (sqrtPriceX96 sqrtPriceAX96 sqrtPriceBX96 liquidity : ℤ)
    (hL : 0 ≤ liquidity) (hA : 0 < sqrtPriceAX96) (hB : 0 < sqrtPriceBX96) :
    (sqrtPriceX96 ≤ min sqrtPriceAX96 sqrtPriceBX96 →
      (getLiquidityAmounts sqrtPriceX96 sqrtPriceAX96 sqrtPriceBX96 liquidity).2 = 0) ∧
    (max sqrtPriceAX96 sqrtPriceBX96 ≤ sqrtPriceX96 →
      (getLiquidityAmounts sqrtPriceX96 sqrtPriceAX96 sqrtPriceBX96 liquidity).1 = 0) ∧
    0 ≤ (getLiquidityAmounts sqrtPriceX96 sqrtPriceAX96 sqrtPriceBX96 liquidity).1 ∧
    0 ≤ (getLiquidityAmounts sqrtPriceX96 sqrtPriceAX96 sqrtPriceBX96 liquidity).2 := by
  have hq : (0 : ℤ) < Q96 := by unfold Q96; positivity
  have hmin : (if sqrtPriceAX96 > sqrtPriceBX96 then sqrtPriceBX96 else sqrtPriceAX96)
      = min sqrtPriceAX96 sqrtPriceBX96 := by split <;> omega
  have hmax : (if sqrtPriceAX96 > sqrtPriceBX96 then sqrtPriceAX96 else sqrtPriceBX96)
      = max sqrtPriceAX96 sqrtPriceBX96 := by split <;> omega
  simp only [getLiquidityAmounts, hmin, hmax]
  set a := min sqrtPriceAX96 sqrtPriceBX96 with ha
  set b := max sqrtPriceAX96 sqrtPriceBX96 with hb
  have ha0 : 0 < a := lt_min hA hB
  have hab : a ≤ b := min_le_max
  by_cases h1 : sqrtPriceX96 ≤ a
  · simp only [if_pos h1]
    refine ⟨fun _ => trivial, fun h => ?_, ?_, le_refl 0⟩
    · have hba : b - a = 0 := by omega
      simp [hba]
    · exact Int.tdiv_nonneg
        (mul_nonneg (mul_nonneg hL hq.le) (by omega))
        (mul_nonneg ha0.le (by omega))
  · by_cases h2 : sqrtPriceX96 < b
    · simp only [if_neg h1, if_pos h2]
      refine ⟨fun h => absurd h h1, fun h => absurd h (by omega), ?_, ?_⟩
      · exact Int.tdiv_nonneg
          (mul_nonneg (mul_nonneg hL hq.le) (by omega))
          (mul_nonneg (by omega) (by omega))
      · exact Int.tdiv_nonneg (mul_nonneg hL (by omega)) hq.le
    · simp only [if_neg h1, if_neg h2]
      refine ⟨fun h => ?_, fun _ => trivial, le_refl 0, ?_⟩
      · have hba : b - a = 0 := by omega
        simp [hba]
      · exact Int.tdiv_nonneg (mul_nonneg hL (by omega)) hq.le

/-- Witness for claim C8 with current price below the range. -/
theorem getLiquidityAmounts_range_split_witness : (0 : ℤ) ≤ 5 ∧ (0 : ℤ) < 2 ∧ (0 : ℤ) < 3 ∧
    (((1 : ℤ) ≤ min 2 3 → (getLiquidityAmounts 1 2 3 5).2 = 0) ∧
    (max (2 : ℤ) 3 ≤ 1 → (getLiquidityAmounts 1 2 3 5).1 = 0) ∧
    0 ≤ (getLiquidityAmounts 1 2 3 5).1 ∧
    0 ≤ (getLiquidityAmounts 1 2 3 5).2) :=
  ⟨by decide, by decide, by decide,
    getLiquidityAmounts_range_split 1 2 3 5 (by decide) (by decide) (by decide)⟩

/-- Claim C9: for non-negative amounts and slippage in `[0, 100]`, the
minimum-side result is at most the amount, the maximum-side result is at
least the amount, and each equals
`(amount * ⌊(100 ∓ slippage) * 100⌋) / 10000` with truncating division. -/
theorem applySlippage_bounds (amount : ℤ) (slippagePercent : ℚ)
    (hamt : 0 ≤ amount) (h0 : 0 ≤ slippagePercent) (h100 : slippagePercent ≤ 100) :
    applySlippage amount slippagePercent true ≤ amount ∧
    amount ≤ applySlippage amount slippagePercent false ∧
    applySlippage amount slippagePercent true =
      Int.tdiv (amount * ⌊((100 : ℚ) - slippagePercent) * 100⌋) 10000 ∧
    applySlippage amount slippagePercent false =
      Int.tdiv (amount * ⌊((100 : ℚ) + slippagePercent) * 100⌋) 10000 := by
  have hfl0 : (0 : ℤ) ≤ ⌊((100 : ℚ) - slippagePercent) * 100⌋ := by
    rw [Int.le_floor]
    push_cast
    nlinarith
  have hfl1 : ⌊((100 : ℚ) - slippagePercent) * 100⌋ ≤ 10000 := by
    have hle : ((100 : ℚ) - slippagePercent) * 100 ≤ ((10000 : ℤ) : ℚ) := by
      push_cast
      nlinarith
    calc ⌊((100 : ℚ) - slippagePercent) * 100⌋ ≤ ⌊(((10000 : ℤ)) : ℚ)⌋ :=
          Int.floor_le_floor hle
      _ = 10000 := Int.floor_intCast _
  have hfg : (10000 : ℤ) ≤ ⌊((100 : ℚ) + slippagePercent) * 100⌋ := by
    rw [Int.le_floor]
    push_cast
    nlinarith
  refine ⟨?_, ?_, rfl, rfl⟩
  · rw [show applySlippage amount slippagePercent true
        = Int.tdiv (amount * ⌊((100 : ℚ) - slippagePercent) * 100⌋) 10000 from rfl,
      Int.tdiv_eq_ediv (mul_nonneg hamt hfl0) (by norm_num)]
    calc amount * ⌊((100 : ℚ) - slippagePercent) * 100⌋ / 10000
        ≤ amount * 10000 / 10000 :=
          Int.ediv_le_ediv (by norm_num) (mul_le_mul_of_nonneg_left hfl1 hamt)
      _ = amount := Int.mul_ediv_cancel amount (by norm_num)
  · rw [show applySlippage amount slippagePercent false
        = Int.tdiv (amount * ⌊((100 : ℚ) + slippagePercent) * 100⌋) 10000 from rfl,
      Int.tdiv_eq_ediv (mul_nonneg hamt (le_trans (by norm_num) hfg)) (by norm_num)]
    calc amount = amount * 10000 / 10000 := (Int.mul_ediv_cancel amount (by norm_num)).symm
      _ ≤ amount * ⌊((100 : ℚ) + slippagePercent) * 100⌋ / 10000 :=
          Int.ediv_le_ediv (by norm_num) (mul_le_mul_of_nonneg_left hfg hamt)

/-- Witness for claim C9 at amount `100`, slippage `1`. -/
theorem applySlippage_bounds_witness : (0 : ℤ) ≤ 100 ∧ (0 : ℚ) ≤ 1 ∧ (1 : ℚ) ≤ 100 ∧
    (applySlippage 100 1 true ≤ 100 ∧
    (100 : ℤ) ≤ applySlippage 100 1 false ∧
    applySlippage 100 1 true = Int.tdiv (100 * ⌊((100 : ℚ) - 1) * 100⌋) 10000 ∧
    applySlippage 100 1 false = Int.tdiv (100 * ⌊((100 : ℚ) + 1) * 100⌋) 10000) :=
  ⟨by decide, by norm_num, by norm_num,
    applySlippage_bounds 100 1 (by decide) (by norm_num) (by norm_num)⟩

/-- Claim C10: every liquidity value recorded by the depth-chart
reconstruction is non-negative, for every input tick list: whenever the
running sum of `liquidityNet` deltas goes negative, the recorded value is
clamped to `0`. -/
theorem liquidityByTick_values_nonneg (entries : List TickData) (p : ℤ × ℤ)
    (hp : p ∈ liquidityByTick entries) : 0 ≤ p.2 :=
  accumulateLiquidity_snd_nonneg 0 (sortTicks entries) p hp

/-- Witness for claim C10 on a list whose running sum goes negative. -/
theorem liquidityByTick_values_nonneg_witness :
    ((0 : ℤ), (0 : ℤ)) ∈ liquidityByTick [⟨0, -5, 5⟩] ∧
      (0 : ℤ) ≤ ((0 : ℤ), (0 : ℤ)).2 :=
  ⟨by decide, liquidityByTick_values_nonneg [⟨0, -5, 5⟩] (0, 0) (by decide)⟩

end UniswapV3UI
